import Mathlib

/-!
Verification of `src/core/observer/interface/helper.h` (iLogtail observer
interface helpers): address codec, connection-key hashing strategies,
statistics table, event framing codec, role inference and record formatter.

Struct layouts (`network.h`), the xxhash implementation and the platform
numeric-address converters are external to the file under verification;
they are modelled from the specification where needed, as noted on each
such definition.
-/

/-- Modelled from the spec: the socket-address type tag of `SockAddress`
(`network.h`, not under `src/`): a tagged union of an IPv4 32-bit value
(held as its four bytes in memory order) and an IPv6 128-bit value (held
as its eight 16-bit groups). The constructor is the type tag. -/
inductive SockAddress where
  | ipv4 (b0 b1 b2 b3 : Nat)
  | ipv6 (g0 g1 g2 g3 g4 g5 g6 g7 : Nat)
  deriving DecidableEq, Repr

/-- A well-formed address: IPv4 bytes fit in 8 bits, IPv6 groups in 16 bits. -/
def ValidSockAddress : SockAddress → Prop
  | SockAddress.ipv4 b0 b1 b2 b3 => b0 < 256 ∧ b1 < 256 ∧ b2 < 256 ∧ b3 < 256
  | SockAddress.ipv6 g0 g1 g2 g3 g4 g5 g6 g7 =>
      g0 < 65536 ∧ g1 < 65536 ∧ g2 < 65536 ∧ g3 < 65536 ∧
      g4 < 65536 ∧ g5 < 65536 ∧ g6 < 65536 ∧ g7 < 65536

instance (a : SockAddress) : Decidable (ValidSockAddress a) := by
  cases a <;> (unfold ValidSockAddress; infer_instance)

/-- Modelled from the spec: `PacketEventType` (`network.h`, not under
`src/`): the event type tag of the fixed header; `Data` signals the
presence of a data section, the other tags are header-only events. -/
inductive PacketEventType where
  | Connect
  | Close
  | Data
  deriving DecidableEq, Repr

/-- Modelled from the spec: `PacketType` (`network.h`, not under `src/`):
the packet direction. -/
inductive PacketType where
  | None
  | In
  | Out
  deriving DecidableEq, Repr

/-- Modelled from the spec: `MessageType` (`network.h`, not under `src/`). -/
inductive MessageType where
  | None
  | Request
  | Response
  deriving DecidableEq, Repr

/-- Modelled from the spec: `ProtocolType` (`network.h`, not under `src/`);
only the inferred-protocol slot of the data section needs it here. -/
inductive ProtocolType where
  | Unknown
  | HTTP
  deriving DecidableEq, Repr

/-- Modelled from the spec: `PacketRoleType` (`network.h`, not under `src/`). -/
inductive PacketRoleType where
  | Unknown
  | Client
  | Server
  deriving DecidableEq, Repr

/-- Modelled from the spec: the socket category (`network.h`, not under
`src/`), e.g. TCP/UDP/other. -/
inductive SocketCategory where
  | Tcp
  | Udp
  | Other
  deriving DecidableEq, Repr

/-- Modelled from the spec: `PacketEventHeader` (`network.h`, not under
`src/`): event type tag, owning process id, per-socket hash, capture
timestamp, source/destination addresses and ports. -/
structure PacketEventHeader where
  EventType : PacketEventType
  PID : Nat
  SockHash : Nat
  TimeNano : Nat
  SrcAddr : SockAddress
  SrcPort : Nat
  DstAddr : SockAddress
  DstPort : Nat
  deriving DecidableEq, Repr

/-- Modelled from the spec: `PacketEventData` (`network.h`, not under
`src/`): packet direction, inferred protocol and message type, the
declared/actual length pair, and the payload reference (`Buffer`, a
pointer in the source, modelled as the referenced bytes). -/
structure PacketEventData where
  PktType : PacketType
  PtlType : ProtocolType
  MsgType : MessageType
  RealLen : Nat
  BufferLen : Nat
  Buffer : List Nat
  deriving DecidableEq, Repr

/-- Source function `InferRequestOrResponse` of `helper.h`: coarse port-based heuristic
classifying a packet as request or response from its direction and ports. -/
def inferRequestOrResponse (pktType : PacketType) (header : PacketEventHeader) : MessageType :=
  if pktType = PacketType.In then
    if header.SrcPort > header.DstPort ∨ header.DstPort < 30000 then
      MessageType.Response
    else
      MessageType.Request
  else if pktType = PacketType.Out then
    if header.SrcPort > header.DstPort ∨ header.DstPort < 30000 then
      MessageType.Request
    else
      MessageType.Response
  else
    MessageType.None

/-- Source function `InferServerOrClient` of `helper.h`. -/
def inferServerOrClient (pktType : PacketType) (messageType : MessageType) : PacketRoleType :=
  if pktType = PacketType.None ∨ messageType = MessageType.None then
    PacketRoleType.Unknown
  else if pktType = PacketType.In then
    if messageType = MessageType.Request then PacketRoleType.Server else PacketRoleType.Client
  else if pktType = PacketType.Out then
    if messageType = MessageType.Request then PacketRoleType.Client else PacketRoleType.Server
  else
    PacketRoleType.Unknown

/-- A header carrying the given source and destination ports (the other
fields are irrelevant to role inference). -/
def headerWithPorts (src dst : Nat) : PacketEventHeader :=
  { EventType := PacketEventType.Data
    PID := 0
    SockHash := 0
    TimeNano := 0
    SrcAddr := SockAddress.ipv4 0 0 0 0
    SrcPort := src
    DstAddr := SockAddress.ipv4 0 0 0 0
    DstPort := dst }

/-- Claim C1: for every header, `InferMessageType` with direction `In`
returns `Response` exactly when sourcePort > destPort or destPort < 30000
and `Request` otherwise; with direction `Out` the two outcomes are
swapped; with direction `None` it returns `None`; and in particular
`(In, src=50000, dst=80)` gives `Response` while `(Out, src=50000, dst=80)`
gives `Request`. -/
theorem inferRequestOrResponse_spec (h : PacketEventHeader) :
    inferRequestOrResponse PacketType.In h =
      (if h.SrcPort > h.DstPort ∨ h.DstPort < 30000 then MessageType.Response
       else MessageType.Request) ∧
    inferRequestOrResponse PacketType.Out h =
      (if h.SrcPort > h.DstPort ∨ h.DstPort < 30000 then MessageType.Request
       else MessageType.Response) ∧
    inferRequestOrResponse PacketType.None h = MessageType.None ∧
    inferRequestOrResponse PacketType.In (headerWithPorts 50000 80) = MessageType.Response ∧
    inferRequestOrResponse PacketType.Out (headerWithPorts 50000 80) = MessageType.Request := by
  refine ⟨?_, ?_, ?_, ?_, ?_⟩ <;> simp [inferRequestOrResponse, headerWithPorts]

/-- Claim C7, counterexample: with direction `In`, sourcePort 80 and
destPort 50000, the code returns `Request`, not `Response` as claimed. -/
theorem inferRequestOrResponse_80_50000_ne_Response :
    inferRequestOrResponse PacketType.In (headerWithPorts 80 50000) ≠ MessageType.Response := by
  decide

/-- Claim C7, amended: for a header with sourcePort 80 and destPort 50000,
`InferMessageType` with direction `In` returns `Request` (neither
sourcePort > destPort nor destPort < 30000 holds, so the else branch of
the `In` case applies). -/
theorem inferRequestOrResponse_80_50000 :
    inferRequestOrResponse PacketType.In (headerWithPorts 80 50000) = MessageType.Request := by
  decide

/-- Little-endian serialization of a machine integer into `k` memory bytes. -/
def writeLE : Nat → Nat → List Nat
  | _, 0 => []
  | n, Nat.succ k => n % 256 :: writeLE (n / 256) k

/-- Little-endian read of a `k`-byte machine integer from a byte buffer. -/
def readLE : List Nat → Nat → Nat
  | _, 0 => 0
  | [], Nat.succ _ => 0
  | b :: bs, Nat.succ k => b % 256 + 256 * readLE bs k

/-- Modelled from the spec: the numeric value of the event type tag in the
fixed, platform-endian header layout (`network.h`, not under `src/`). -/
def petToNat : PacketEventType → Nat
  | PacketEventType.Connect => 1
  | PacketEventType.Close => 2
  | PacketEventType.Data => 3

/-- Modelled from the spec: reading an event type tag back from its numeric
value; values outside the defined range fall back to a non-data tag. -/
def petOfNat (n : Nat) : PacketEventType :=
  if n = 1 then PacketEventType.Connect
  else if n = 2 then PacketEventType.Close
  else if n = 3 then PacketEventType.Data
  else PacketEventType.Connect

/-- Modelled from the spec: numeric value of a packet direction. -/
def ptToNat : PacketType → Nat
  | PacketType.None => 0
  | PacketType.In => 1
  | PacketType.Out => 2

/-- Modelled from the spec: packet direction from its numeric value. -/
def ptOfNat (n : Nat) : PacketType :=
  if n = 1 then PacketType.In
  else if n = 2 then PacketType.Out
  else PacketType.None

/-- Modelled from the spec: numeric value of a message type. -/
def mtToNat : MessageType → Nat
  | MessageType.None => 0
  | MessageType.Request => 1
  | MessageType.Response => 2

/-- Modelled from the spec: message type from its numeric value. -/
def mtOfNat (n : Nat) : MessageType :=
  if n = 1 then MessageType.Request
  else if n = 2 then MessageType.Response
  else MessageType.None

/-- Modelled from the spec: numeric value of a protocol type. -/
def protToNat : ProtocolType → Nat
  | ProtocolType.Unknown => 0
  | ProtocolType.HTTP => 1

/-- Modelled from the spec: protocol type from its numeric value. -/
def protOfNat (n : Nat) : ProtocolType :=
  if n = 1 then ProtocolType.HTTP else ProtocolType.Unknown

/-- The two in-memory bytes of one 16-bit IPv6 group (network byte order). -/
def groupBytes (g : Nat) : List Nat :=
  [g / 256 % 256, g % 256]

/-- Modelled from the spec: the in-memory bytes of a `SockAddress` value
(`network.h`, not under `src/`): a 4-byte type tag followed by the 16-byte
address union (IPv4 uses the first four bytes, the rest are zero). -/
def addrToBytes : SockAddress → List Nat
  | SockAddress.ipv4 b0 b1 b2 b3 =>
      writeLE 0 4 ++ b0 % 256 :: b1 % 256 :: b2 % 256 :: b3 % 256 :: List.replicate 12 0
  | SockAddress.ipv6 g0 g1 g2 g3 g4 g5 g6 g7 =>
      writeLE 1 4 ++ groupBytes g0 ++ groupBytes g1 ++ groupBytes g2 ++ groupBytes g3 ++
        groupBytes g4 ++ groupBytes g5 ++ groupBytes g6 ++ groupBytes g7

/-- Modelled from the spec: reading a `SockAddress` back from the bytes
following its type tag. -/
def parseAddrPayload (tag : Nat) (p : List Nat) : SockAddress :=
  if tag = 0 then
    match p with
    | b0 :: b1 :: b2 :: b3 :: _ =>
        SockAddress.ipv4 (b0 % 256) (b1 % 256) (b2 % 256) (b3 % 256)
    | _ => SockAddress.ipv4 0 0 0 0
  else
    match p with
    | x0 :: x1 :: x2 :: x3 :: x4 :: x5 :: x6 :: x7 ::
      x8 :: x9 :: x10 :: x11 :: x12 :: x13 :: x14 :: x15 :: _ =>
        SockAddress.ipv6 (x0 % 256 * 256 + x1 % 256) (x2 % 256 * 256 + x3 % 256)
          (x4 % 256 * 256 + x5 % 256) (x6 % 256 * 256 + x7 % 256)
          (x8 % 256 * 256 + x9 % 256) (x10 % 256 * 256 + x11 % 256)
          (x12 % 256 * 256 + x13 % 256) (x14 % 256 * 256 + x15 % 256)
    | _ => SockAddress.ipv6 0 0 0 0 0 0 0 0

/-- Modelled from the spec: reading a `SockAddress` from a byte buffer. -/
def parseAddr (b : List Nat) : SockAddress :=
  parseAddrPayload (readLE b 4) (b.drop 4)

/-- Size in bytes of the fixed `PacketEventHeader` in the modelled layout. -/
def headerSize : Nat := 64

/-- Size in bytes of the fixed part of `PacketEventData` in the modelled
layout (the trailing eight bytes are the `Buffer` pointer slot, whose
in-memory value is irrelevant on the wire and overwritten on decode). -/
def dataSize : Nat := 28

/-- Modelled from the spec: the fixed, platform-endian in-memory layout of
`PacketEventHeader` (`network.h`, not under `src/`): event type tag at
offset 0, process id at 4, per-socket hash at 8, timestamp at 12, source
address at 20, source port at 40, destination address at 42, destination
port at 62; 64 bytes in total. -/
def headerToBytes (h : PacketEventHeader) : List Nat :=
  writeLE (petToNat h.EventType) 4 ++ writeLE h.PID 4 ++ writeLE h.SockHash 4 ++
    writeLE h.TimeNano 8 ++ addrToBytes h.SrcAddr ++ writeLE h.SrcPort 2 ++
    addrToBytes h.DstAddr ++ writeLE h.DstPort 2

/-- Modelled from the spec: reading the fixed header fields at their
defined offsets of a byte buffer (the overlay performed by the source when
it casts the buffer start to `PacketEventHeader*`). -/
def parseHeader (b : List Nat) : PacketEventHeader :=
  { EventType := petOfNat (readLE b 4)
    PID := readLE (b.drop 4) 4
    SockHash := readLE ((b.drop 4).drop 4) 4
    TimeNano := readLE (((b.drop 4).drop 4).drop 4) 8
    SrcAddr := parseAddr ((((b.drop 4).drop 4).drop 4).drop 8)
    SrcPort := readLE (((((b.drop 4).drop 4).drop 4).drop 8).drop 20) 2
    DstAddr := parseAddr ((((((b.drop 4).drop 4).drop 4).drop 8).drop 20).drop 2)
    DstPort := readLE (((((((b.drop 4).drop 4).drop 4).drop 8).drop 20).drop 2).drop 20) 2 }

/-- Modelled from the spec: the in-memory bytes of the fixed part of
`PacketEventData`: direction at offset 0, protocol type at 4, message type
at 8, real length at 12, declared buffer length at 16, then the 8-byte
`Buffer` pointer slot (written as zeros; its value never travels). -/
def dataFixedToBytes (d : PacketEventData) : List Nat :=
  writeLE (ptToNat d.PktType) 4 ++ writeLE (protToNat d.PtlType) 4 ++
    writeLE (mtToNat d.MsgType) 4 ++ writeLE d.RealLen 4 ++ writeLE d.BufferLen 4 ++
    List.replicate 8 0

/-- Modelled from the spec: reading the fixed data-section fields at their
defined offsets (the overlay performed by the source when it casts the
bytes after the header to `PacketEventData*`); the payload reference is
filled in separately by the decoder. -/
def parseDataFixed (b : List Nat) : PacketEventData :=
  { PktType := ptOfNat (readLE b 4)
    PtlType := protOfNat (readLE (b.drop 4) 4)
    MsgType := mtOfNat (readLE ((b.drop 4).drop 4) 4)
    RealLen := readLE (((b.drop 4).drop 4).drop 4) 4
    BufferLen := readLE ((((b.drop 4).drop 4).drop 4).drop 4) 4
    Buffer := [] }

/-- The decoded view of a raw buffer: the fixed header and, when the data
section was overlaid, the data section with its payload reference. -/
structure PacketEvent where
  header : PacketEventHeader
  data : Option PacketEventData
  deriving DecidableEq, Repr

/-- Source function `BufferToPacketEvent` of `helper.h`: returns no event when the buffer
is shorter than the fixed header; aliases the header at offset 0; when the
buffer is strictly longer than the header, overlays the data section right
after the header and points its payload reference at the bytes following
the fixed data-section fields (its extent given by the declared buffer
length). The source never consults the event type tag here. -/
def bufferToPacketEvent (buffer : List Nat) : Option PacketEvent :=
  if buffer.length < headerSize then
    none
  else if buffer.length = headerSize then
    some { header := parseHeader buffer, data := none }
  else
    some { header := parseHeader buffer
           data := some { parseDataFixed (buffer.drop headerSize) with
                          Buffer := ((buffer.drop headerSize).drop dataSize).take
                                      (parseDataFixed (buffer.drop headerSize)).BufferLen } }

/-- Source function `PacketEventToBuffer` of `helper.h`: produces the empty buffer when
`len` is below the fixed header size; otherwise emits a 4-byte
little-endian length prefix followed by the header and, for data events,
the fixed data-section fields and the payload bytes (copied). In this
model an event whose type tag is `Data` always carries a data section. -/
def packetEventToBuffer (event : PacketEvent) (len : Nat) : List Nat :=
  if len < headerSize then
    []
  else
    match event.header.EventType, event.data with
    | PacketEventType.Data, some data =>
        writeLE (headerSize + dataSize + data.BufferLen) 4 ++ headerToBytes event.header ++
          dataFixedToBytes data ++ data.Buffer.take data.BufferLen
    | _, _ => writeLE headerSize 4 ++ headerToBytes event.header

/-- A header whose integer fields fit the widths of the modelled layout. -/
def ValidPacketEventHeader (h : PacketEventHeader) : Prop :=
  h.PID < 256 ^ 4 ∧ h.SockHash < 256 ^ 4 ∧ h.TimeNano < 256 ^ 8 ∧
    ValidSockAddress h.SrcAddr ∧ h.SrcPort < 256 ^ 2 ∧
    ValidSockAddress h.DstAddr ∧ h.DstPort < 256 ^ 2

instance (h : PacketEventHeader) : Decidable (ValidPacketEventHeader h) := by
  unfold ValidPacketEventHeader; infer_instance

theorem writeLE_length (n k : Nat) : (writeLE n k).length = k := by
  induction k generalizing n with
  | zero => rfl
  | succ k ih => simp [writeLE, ih]

theorem drop_append_of_length (a rest : List Nat) (k : Nat) (h : a.length = k) :
    (a ++ rest).drop k = rest := by
  subst h
  exact List.drop_left a rest

theorem drop_writeLE (n k : Nat) (rest : List Nat) :
    (writeLE n k ++ rest).drop k = rest :=
  drop_append_of_length _ _ _ (writeLE_length n k)

theorem readLE_writeLE_mod (k n : Nat) (rest : List Nat) :
    readLE (writeLE n k ++ rest) k = n % 256 ^ k := by
  induction k generalizing n with
  | zero => simp [writeLE, readLE, Nat.mod_one]
  | succ k ih =>
      show readLE (n % 256 :: (writeLE (n / 256) k ++ rest)) (k + 1) = n % 256 ^ (k + 1)
      rw [readLE, ih, pow_succ', Nat.mod_mul, Nat.mod_mod_of_dvd n (dvd_refl 256)]

theorem readLE_writeLE (k n : Nat) (rest : List Nat) (h : n < 256 ^ k) :
    readLE (writeLE n k ++ rest) k = n := by
  rw [readLE_writeLE_mod, Nat.mod_eq_of_lt h]

theorem petToNat_lt (t : PacketEventType) : petToNat t < 256 ^ 4 := by
  cases t <;> decide

theorem petOfNat_petToNat (t : PacketEventType) : petOfNat (petToNat t) = t := by
  cases t <;> rfl

theorem ptToNat_lt (t : PacketType) : ptToNat t < 256 ^ 4 := by
  cases t <;> decide

theorem ptOfNat_ptToNat (t : PacketType) : ptOfNat (ptToNat t) = t := by
  cases t <;> rfl

theorem mtToNat_lt (t : MessageType) : mtToNat t < 256 ^ 4 := by
  cases t <;> decide

theorem mtOfNat_mtToNat (t : MessageType) : mtOfNat (mtToNat t) = t := by
  cases t <;> rfl

theorem protToNat_lt (t : ProtocolType) : protToNat t < 256 ^ 4 := by
  cases t <;> decide

theorem protOfNat_protToNat (t : ProtocolType) : protOfNat (protToNat t) = t := by
  cases t <;> rfl

theorem addrToBytes_length (a : SockAddress) : (addrToBytes a).length = 20 := by
  cases a <;> simp [addrToBytes, groupBytes, writeLE_length]

theorem drop_addrToBytes (a : SockAddress) (rest : List Nat) :
    (addrToBytes a ++ rest).drop 20 = rest :=
  drop_append_of_length _ _ _ (addrToBytes_length a)

theorem parseAddr_prefix (a : SockAddress) (rest : List Nat) (hv : ValidSockAddress a) :
    parseAddr (addrToBytes a ++ rest) = a := by
  cases a with
  | ipv4 b0 b1 b2 b3 =>
      obtain ⟨h0, h1, h2, h3⟩ := hv
      unfold parseAddr addrToBytes
      rw [List.append_assoc, readLE_writeLE 4 0 _ (by decide), drop_writeLE]
      simp only [List.cons_append, parseAddrPayload, eq_self_iff_true, if_true,
        SockAddress.ipv4.injEq]
      omega
  | ipv6 g0 g1 g2 g3 g4 g5 g6 g7 =>
      obtain ⟨h0, h1, h2, h3, h4, h5, h6, h7⟩ := hv
      unfold parseAddr addrToBytes
      simp only [List.append_assoc]
      rw [readLE_writeLE 4 1 _ (by decide), drop_writeLE]
      simp only [groupBytes, List.cons_append, List.nil_append, parseAddrPayload,
        if_neg (by decide : ¬(1 : Nat) = 0), SockAddress.ipv6.injEq]
      omega

theorem headerToBytes_length (h : PacketEventHeader) : (headerToBytes h).length = 64 := by
  simp [headerToBytes, writeLE_length, addrToBytes_length]

theorem drop_headerToBytes (h : PacketEventHeader) (rest : List Nat) :
    (headerToBytes h ++ rest).drop 64 = rest :=
  drop_append_of_length _ _ _ (headerToBytes_length h)

theorem dataFixedToBytes_length (d : PacketEventData) : (dataFixedToBytes d).length = 28 := by
  simp [dataFixedToBytes, writeLE_length]

theorem drop_dataFixedToBytes (d : PacketEventData) (rest : List Nat) :
    (dataFixedToBytes d ++ rest).drop 28 = rest :=
  drop_append_of_length _ _ _ (dataFixedToBytes_length d)

theorem parseHeader_headerToBytes (h : PacketEventHeader) (rest : List Nat)
    (hv : ValidPacketEventHeader h) :
    parseHeader (headerToBytes h ++ rest) = h := by
  obtain ⟨hp, hs, ht, hsa, hsp, hda, hdp⟩ := hv
  cases h with
  | mk EventType PID SockHash TimeNano SrcAddr SrcPort DstAddr DstPort =>
      simp only at hp hs ht hsa hsp hda hdp
      unfold parseHeader headerToBytes
      simp only [List.append_assoc, drop_writeLE, drop_addrToBytes,
        PacketEventHeader.mk.injEq]
      refine ⟨?_, ?_, ?_, ?_, ?_, ?_, ?_, ?_⟩
      · rw [readLE_writeLE 4 _ _ (petToNat_lt _), petOfNat_petToNat]
      · exact readLE_writeLE 4 _ _ hp
      · exact readLE_writeLE 4 _ _ hs
      · exact readLE_writeLE 8 _ _ ht
      · exact parseAddr_prefix _ _ hsa
      · exact readLE_writeLE 2 _ _ hsp
      · exact parseAddr_prefix _ _ hda
      · exact readLE_writeLE 2 _ _ hdp

theorem parseDataFixed_dataFixedToBytes (d : PacketEventData) (rest : List Nat)
    (hr : d.RealLen < 256 ^ 4) (hb : d.BufferLen < 256 ^ 4) :
    parseDataFixed (dataFixedToBytes d ++ rest) = { d with Buffer := [] } := by
  cases d with
  | mk PktType PtlType MsgType RealLen BufferLen Buffer =>
      simp only at hr hb
      unfold parseDataFixed dataFixedToBytes
      simp only [List.append_assoc, drop_writeLE, PacketEventData.mk.injEq]
      refine ⟨?_, ?_, ?_, ?_, ?_, trivial⟩
      · rw [readLE_writeLE 4 _ _ (ptToNat_lt _), ptOfNat_ptToNat]
      · rw [readLE_writeLE 4 _ _ (protToNat_lt _), protOfNat_protToNat]
      · rw [readLE_writeLE 4 _ _ (mtToNat_lt _), mtOfNat_mtToNat]
      · exact readLE_writeLE 4 _ _ hr
      · exact readLE_writeLE 4 _ _ hb

theorem parseHeader_fields (b : List Nat) :
    (parseHeader b).EventType = petOfNat (readLE b 4) ∧
    (parseHeader b).PID = readLE (b.drop 4) 4 ∧
    (parseHeader b).SockHash = readLE (b.drop 8) 4 ∧
    (parseHeader b).TimeNano = readLE (b.drop 12) 8 ∧
    (parseHeader b).SrcAddr = parseAddr (b.drop 20) ∧
    (parseHeader b).SrcPort = readLE (b.drop 40) 2 ∧
    (parseHeader b).DstAddr = parseAddr (b.drop 42) ∧
    (parseHeader b).DstPort = readLE (b.drop 62) 2 := by
  unfold parseHeader
  simp [List.drop_drop]

/-- Claim C4: `Decode` returns the empty result exactly when the buffer is
shorter than the fixed header; on any buffer at least as long as the
header it succeeds, and the decoded header fields are read at their
defined offsets of the buffer (the header aliases offset 0). -/
theorem bufferToPacketEvent_length_spec (b : List Nat) :
    (bufferToPacketEvent b = none ↔ b.length < headerSize) ∧
    (bufferToPacketEvent b).map PacketEvent.header =
      (if headerSize ≤ b.length then some (parseHeader b) else none) ∧
    (parseHeader b).EventType = petOfNat (readLE b 4) ∧
    (parseHeader b).PID = readLE (b.drop 4) 4 ∧
    (parseHeader b).SockHash = readLE (b.drop 8) 4 ∧
    (parseHeader b).TimeNano = readLE (b.drop 12) 8 ∧
    (parseHeader b).SrcAddr = parseAddr (b.drop 20) ∧
    (parseHeader b).SrcPort = readLE (b.drop 40) 2 ∧
    (parseHeader b).DstAddr = parseAddr (b.drop 42) ∧
    (parseHeader b).DstPort = readLE (b.drop 62) 2 := by
  refine ⟨?_, ?_, parseHeader_fields b⟩
  · by_cases h1 : b.length < headerSize
    · simp [bufferToPacketEvent, h1]
    · by_cases h2 : b.length = headerSize <;> simp [bufferToPacketEvent, h1, h2]
  · by_cases h1 : b.length < headerSize
    · rw [if_neg (by omega)]
      simp [bufferToPacketEvent, h1]
    · rw [if_pos (by omega)]
      by_cases h2 : b.length = headerSize <;> simp [bufferToPacketEvent, h1, h2]

/-- A buffer strictly longer than the fixed header whose header tags a
non-data (`Connect`) event. -/
def nonDataLongBuffer : List Nat :=
  headerToBytes { headerWithPorts 0 0 with EventType := PacketEventType.Connect } ++
    List.replicate 28 0 ++ [7]

/-- Claim C2, counterexample: decoding a buffer longer than the fixed
header whose event type tag is `Connect` (not a data event) still yields
an event with a data section overlaid, because the source never consults
the event type tag in `BufferToPacketEvent`. -/
theorem bufferToPacketEvent_nondata_overlay :
    (bufferToPacketEvent nonDataLongBuffer).map
        (fun e => (e.header.EventType, e.data.isSome)) =
      some (PacketEventType.Connect, true) ∧
    PacketEventType.Connect ≠ PacketEventType.Data := by
  constructor
  · decide
  · decide

/-- Claim C2, amended: `Decode` overlays the data section after the fixed
header, and points the payload reference at the bytes following the fixed
data-section fields bounded by the declared buffer length, exactly when
the buffer length exceeds the fixed header size — regardless of the event
type tag in the header; a buffer of exactly header length yields a
header-only event. -/
theorem bufferToPacketEvent_data_overlay (b : List Nat) :
    (bufferToPacketEvent b).bind PacketEvent.data =
      (if headerSize < b.length then
        some { parseDataFixed (b.drop headerSize) with
               Buffer := ((b.drop headerSize).drop dataSize).take
                           (parseDataFixed (b.drop headerSize)).BufferLen }
       else none) := by
  by_cases h1 : b.length < headerSize
  · rw [if_neg (by omega)]
    simp [bufferToPacketEvent, h1]
  · by_cases h2 : b.length = headerSize
    · rw [if_neg (by omega)]
      simp [bufferToPacketEvent, h1, h2]
    · rw [if_pos (by omega)]
      simp [bufferToPacketEvent, h1, h2]

/-- Claim C3: encode/decode round-trip for data events whose declared
buffer length equals the payload length: decoding the encoded frame after
its 4-byte length prefix restores the header, the fixed data-section
fields and the payload byte-for-byte. -/
theorem packetEvent_roundtrip (h : PacketEventHeader) (d : PacketEventData) (len : Nat)
    (hhv : ValidPacketEventHeader h) (hrl : d.RealLen < 256 ^ 4) (hbl : d.BufferLen < 256 ^ 4)
    (het : h.EventType = PacketEventType.Data) (hlen : d.BufferLen = d.Buffer.length)
    (hle : headerSize ≤ len) :
    bufferToPacketEvent ((packetEventToBuffer { header := h, data := some d } len).drop 4) =
      some { header := h, data := some d } := by
  simp only [packetEventToBuffer, het]
  rw [if_neg (Nat.not_lt.mpr hle)]
  simp only [List.append_assoc]
  rw [drop_writeLE]
  have hplen : (d.Buffer.take d.BufferLen).length = d.BufferLen := by
    simp [List.length_take, hlen]
  have hX : (headerToBytes h ++ (dataFixedToBytes d ++ d.Buffer.take d.BufferLen)).length
      = 92 + d.BufferLen := by
    simp [headerToBytes_length, dataFixedToBytes_length, hplen]
    omega
  unfold bufferToPacketEvent
  rw [if_neg (by simp [headerSize, hX]; omega), if_neg (by simp [headerSize, hX]; omega)]
  have hdropH : (headerToBytes h ++ (dataFixedToBytes d ++ List.take d.BufferLen d.Buffer)).drop
      headerSize = dataFixedToBytes d ++ List.take d.BufferLen d.Buffer := by
    simpa [headerSize] using drop_headerToBytes h (dataFixedToBytes d ++ List.take d.BufferLen d.Buffer)
  rw [hdropH, parseHeader_headerToBytes h _ hhv, parseDataFixed_dataFixedToBytes d _ hrl hbl]
  have hdropD : (dataFixedToBytes d ++ List.take d.BufferLen d.Buffer).drop dataSize
      = List.take d.BufferLen d.Buffer := by
    simpa [dataSize] using drop_dataFixedToBytes d (List.take d.BufferLen d.Buffer)
  rw [hdropD]
  simp only [List.take_take, Nat.min_self]
  rw [show List.take d.BufferLen d.Buffer = d.Buffer from by rw [hlen]; exact List.take_length _]

/-- A concrete valid data-event header used to witness the round-trip. -/
def eventHeaderExample : PacketEventHeader :=
  { EventType := PacketEventType.Data
    PID := 42
    SockHash := 7
    TimeNano := 123456789
    SrcAddr := SockAddress.ipv6 1 2 3 4 5 6 7 8
    SrcPort := 34567
    DstAddr := SockAddress.ipv4 10 0 0 1
    DstPort := 80 }

/-- A concrete data section with a three-byte payload used to witness the
round-trip. -/
def eventDataExample : PacketEventData :=
  { PktType := PacketType.Out
    PtlType := ProtocolType.HTTP
    MsgType := MessageType.Request
    RealLen := 5
    BufferLen := 3
    Buffer := [72, 73, 33] }

theorem packetEvent_roundtrip_witness :
    ValidPacketEventHeader eventHeaderExample ∧
    eventDataExample.RealLen < 256 ^ 4 ∧ eventDataExample.BufferLen < 256 ^ 4 ∧
    eventHeaderExample.EventType = PacketEventType.Data ∧
    eventDataExample.BufferLen = eventDataExample.Buffer.length ∧
    headerSize ≤ 64 ∧
    bufferToPacketEvent
        ((packetEventToBuffer { header := eventHeaderExample, data := some eventDataExample }
          64).drop 4) =
      some { header := eventHeaderExample, data := some eventDataExample } :=
  ⟨by decide, by decide, by decide, rfl, by decide, by decide,
    packetEvent_roundtrip eventHeaderExample eventDataExample 64 (by decide) (by decide)
      (by decide) rfl (by decide) (by decide)⟩

/-- Modelled from the spec: `NetStatisticsKey` (`network.h`, not under
`src/`): the Connection Key identifying a directional flow — owning
process id, opaque per-socket hash, source/destination addresses and
ports, observed role and socket category. -/
structure NetStatisticsKey where
  PID : Nat
  SockHash : Nat
  SrcAddr : SockAddress
  SrcPort : Nat
  DstAddr : SockAddress
  DstPort : Nat
  RoleType : PacketRoleType
  SockCategory : SocketCategory
  deriving DecidableEq, Repr

/-- Modelled from the spec: `NetStatisticsBase` (`network.h`, not under
`src/`): cumulative sent/received byte and packet counts plus the
reserved protocol-match counters and inferred protocol type. -/
structure NetStatisticsBase where
  SendBytes : Nat
  RecvBytes : Nat
  SendPackets : Nat
  RecvPackets : Nat
  ProtocolMatched : Nat
  ProtocolUnMatched : Nat
  LastInferedProtocolType : ProtocolType
  deriving DecidableEq, Repr

/-- Modelled from the spec: `NetStatisticsTCP` (`network.h`, not under
`src/`): the Flow Statistics accumulator — base counters, cumulative
latencies and the reserved retransmission/zero-window counters. -/
structure NetStatisticsTCP where
  Base : NetStatisticsBase
  SendTotalLatency : Nat
  RecvTotalLatency : Nat
  SendRetranCount : Nat
  RecvRetranCount : Nat
  SendZeroWinCount : Nat
  RecvZeroWinCount : Nat
  deriving DecidableEq, Repr

/-- The zero-initialized `static NetStatisticsTCP sNewTcp` of
`NetStaticticsMap::GetStatisticsItem`: the freshly created entry value. -/
def sNewTcp : NetStatisticsTCP :=
  { Base := { SendBytes := 0, RecvBytes := 0, SendPackets := 0, RecvPackets := 0,
              ProtocolMatched := 0, ProtocolUnMatched := 0,
              LastInferedProtocolType := ProtocolType.Unknown }
    SendTotalLatency := 0
    RecvTotalLatency := 0
    SendRetranCount := 0
    RecvRetranCount := 0
    SendZeroWinCount := 0
    RecvZeroWinCount := 0 }

/-- Source functor `NetStatisticsKeyHash` of `helper.h`: bit-packs the process id into
the high 32 bits over the per-socket hash (both 32-bit values). -/
def netStatisticsKeyHash (key : NetStatisticsKey) : Nat :=
  (key.PID % 4294967296) * 4294967296 + key.SockHash % 4294967296

/-- Source functor `NetStatisticsKeyEqual` of `helper.h`: the per-socket strategy's
equality — process id and per-socket hash. -/
def netStatisticsKeyEqual (a b : NetStatisticsKey) : Bool :=
  a.PID == b.PID && a.SockHash == b.SockHash

/-- Modelled from the spec: `XXH32` (`common/xxhash`, not under `src/`) —
a seeded streaming 32-bit hash folded over the bytes of its input buffer. -/
def XXH32 (bytes : List Nat) (seed : Nat) : Nat :=
  bytes.foldl (fun h b => (h * 33 + b % 256 + 2654435761) % 4294967296) (seed % 4294967296)

/-- Source functor `MergedNetStatisticsKeyHash` of `helper.h`: the streaming hash seeded
with 0, folded over the destination address bytes, then the destination
port, then the process id. -/
def mergedNetStatisticsKeyHash (key : NetStatisticsKey) : Nat :=
  XXH32 (writeLE key.PID 4) (XXH32 (writeLE key.DstPort 2) (XXH32 (addrToBytes key.DstAddr) 0))

/-- Source functor `MergedNetStatisticsKeyEqual` of `helper.h`: the merged-by-endpoint
strategy's equality — process id, destination port, observed role and
destination address (source address/port and per-socket hash excluded). -/
def mergedNetStatisticsKeyEqual (a b : NetStatisticsKey) : Bool :=
  a.PID == b.PID && a.DstPort == b.DstPort && a.RoleType == b.RoleType && a.DstAddr == b.DstAddr

/-- Lookup in the statistics table under the given equality strategy (the
bucketing of `std::unordered_map` is modelled by the association list;
correctness needs only that equal keys hash equal, which each strategy's
hash theorem provides). -/
def findStatisticsEntry (eq : NetStatisticsKey → NetStatisticsKey → Bool)
    (m : List (NetStatisticsKey × NetStatisticsTCP)) (key : NetStatisticsKey) :
    Option (NetStatisticsKey × NetStatisticsTCP) :=
  m.find? (fun p => eq p.fst key)

/-- Source method `NetStaticticsMap::GetStatisticsItem` of `helper.h`: returns the
existing entry when the key is present under the strategy, otherwise
inserts a copy of the zero-valued `sNewTcp` and returns it (value and
updated table). -/
def getStatisticsItem (eq : NetStatisticsKey → NetStatisticsKey → Bool)
    (m : List (NetStatisticsKey × NetStatisticsTCP)) (key : NetStatisticsKey) :
    NetStatisticsTCP × List (NetStatisticsKey × NetStatisticsTCP) :=
  match findStatisticsEntry eq m key with
  | some p => (p.snd, m)
  | none => (sNewTcp, m ++ [(key, sNewTcp)])

/-- Source method `NetStaticticsMap::Clear` of `helper.h`: removes all entries. -/
def clearStatisticsMap (m : List (NetStatisticsKey × NetStatisticsTCP)) :
    List (NetStatisticsKey × NetStatisticsTCP) := []

/-- Mutation through the reference returned by `GetStatisticsItem`:
overwrites the entry matching the key under the strategy. -/
def setStatisticsItem (eq : NetStatisticsKey → NetStatisticsKey → Bool)
    (m : List (NetStatisticsKey × NetStatisticsTCP)) (key : NetStatisticsKey)
    (v : NetStatisticsTCP) : List (NetStatisticsKey × NetStatisticsTCP) :=
  m.map (fun p => if eq p.fst key then (p.fst, v) else p)


/-- Claim C5: under the merged-by-endpoint strategy, any two Connection
Keys agreeing on process id, destination address, destination port and
observed role (regardless of their source addresses, source ports or
per-socket hashes) hash equal under the streaming hash (seeded, folded
over destination address bytes, then destination port, then process id),
compare equal, and accumulate into the same Flow Statistics entry of a
table configured with this strategy. -/
theorem mergedStrategy_spec (k1 k2 : NetStatisticsKey)
    (m : List (NetStatisticsKey × NetStatisticsTCP))
    (hpid : k1.PID = k2.PID) (haddr : k1.DstAddr = k2.DstAddr)
    (hport : k1.DstPort = k2.DstPort) (hrole : k1.RoleType = k2.RoleType) :
    mergedNetStatisticsKeyHash k1 = mergedNetStatisticsKeyHash k2 ∧
    mergedNetStatisticsKeyEqual k1 k2 = true ∧
    getStatisticsItem mergedNetStatisticsKeyEqual
        (getStatisticsItem mergedNetStatisticsKeyEqual m k1).snd k2 =
      ((getStatisticsItem mergedNetStatisticsKeyEqual m k1).fst,
       (getStatisticsItem mergedNetStatisticsKeyEqual m k1).snd) := by
  have heqfun : (fun p : NetStatisticsKey × NetStatisticsTCP =>
      mergedNetStatisticsKeyEqual p.fst k2) =
      (fun p => mergedNetStatisticsKeyEqual p.fst k1) := by
    funext p
    simp [mergedNetStatisticsKeyEqual, hpid, haddr, hport, hrole]
  refine ⟨?_, ?_, ?_⟩
  · unfold mergedNetStatisticsKeyHash
    rw [hpid, haddr, hport]
  · simp [mergedNetStatisticsKeyEqual, hpid, haddr, hport, hrole]
  · cases hfind : findStatisticsEntry mergedNetStatisticsKeyEqual m k1 with
    | some p =>
        have h2 : findStatisticsEntry mergedNetStatisticsKeyEqual m k2 = some p := by
          unfold findStatisticsEntry at hfind ⊢
          rw [heqfun]
          exact hfind
        simp [getStatisticsItem, hfind, h2]
    | none =>
        have h2 : findStatisticsEntry mergedNetStatisticsKeyEqual
            (m ++ [(k1, sNewTcp)]) k2 = some (k1, sNewTcp) := by
          unfold findStatisticsEntry at hfind ⊢
          rw [heqfun]
          rw [List.find?_append, hfind]
          simp [mergedNetStatisticsKeyEqual]
        simp [getStatisticsItem, hfind, h2]


/-- Claim C8: `GetOrCreate` returns the existing entry when the key is
present under the table's strategy and otherwise inserts a zero-valued
entry and returns it; after `Clear()` empties the table, `GetOrCreate`
for a previously-inserted key returns a freshly zero-valued entry, not
the previously accumulated value. -/
theorem getStatisticsItem_spec (m : List (NetStatisticsKey × NetStatisticsTCP))
    (k : NetStatisticsKey) (v : NetStatisticsTCP) (hv : v ≠ sNewTcp) :
    (match findStatisticsEntry netStatisticsKeyEqual m k with
     | some p => getStatisticsItem netStatisticsKeyEqual m k = (p.snd, m)
     | none => getStatisticsItem netStatisticsKeyEqual m k = (sNewTcp, m ++ [(k, sNewTcp)])) ∧
    getStatisticsItem netStatisticsKeyEqual (clearStatisticsMap m) k = (sNewTcp, [(k, sNewTcp)]) ∧
    (getStatisticsItem netStatisticsKeyEqual
        (clearStatisticsMap (setStatisticsItem netStatisticsKeyEqual m k v)) k).fst = sNewTcp ∧
    (getStatisticsItem netStatisticsKeyEqual
        (clearStatisticsMap (setStatisticsItem netStatisticsKeyEqual m k v)) k).fst ≠ v := by
  refine ⟨?_, ?_, ?_, ?_⟩
  · cases hfind : findStatisticsEntry netStatisticsKeyEqual m k <;>
      simp [getStatisticsItem, hfind]
  · simp [getStatisticsItem, findStatisticsEntry, clearStatisticsMap]
  · simp [getStatisticsItem, findStatisticsEntry, clearStatisticsMap]
  · simp [getStatisticsItem, findStatisticsEntry, clearStatisticsMap]
    exact fun h => hv h.symm

/-- A concrete Connection Key. -/
def statisticsKeyExample : NetStatisticsKey :=
  { PID := 1234
    SockHash := 99
    SrcAddr := SockAddress.ipv4 192 168 0 2
    SrcPort := 41000
    DstAddr := SockAddress.ipv4 10 1 2 3
    DstPort := 443
    RoleType := PacketRoleType.Client
    SockCategory := SocketCategory.Tcp }

/-- The same endpoint observed through a different socket: same process
id, destination address, destination port and role, but different source
address, source port and per-socket hash. -/
def statisticsKeyExample2 : NetStatisticsKey :=
  { PID := 1234
    SockHash := 77
    SrcAddr := SockAddress.ipv4 192 168 0 9
    SrcPort := 52123
    DstAddr := SockAddress.ipv4 10 1 2 3
    DstPort := 443
    RoleType := PacketRoleType.Client
    SockCategory := SocketCategory.Tcp }

theorem mergedStrategy_spec_witness :
    statisticsKeyExample.PID = statisticsKeyExample2.PID ∧
    statisticsKeyExample.DstAddr = statisticsKeyExample2.DstAddr ∧
    statisticsKeyExample.DstPort = statisticsKeyExample2.DstPort ∧
    statisticsKeyExample.RoleType = statisticsKeyExample2.RoleType ∧
    statisticsKeyExample.SockHash ≠ statisticsKeyExample2.SockHash ∧
    statisticsKeyExample.SrcAddr ≠ statisticsKeyExample2.SrcAddr ∧
    statisticsKeyExample.SrcPort ≠ statisticsKeyExample2.SrcPort ∧
    (mergedNetStatisticsKeyHash statisticsKeyExample =
        mergedNetStatisticsKeyHash statisticsKeyExample2 ∧
      mergedNetStatisticsKeyEqual statisticsKeyExample statisticsKeyExample2 = true ∧
      getStatisticsItem mergedNetStatisticsKeyEqual
          (getStatisticsItem mergedNetStatisticsKeyEqual [] statisticsKeyExample).snd
          statisticsKeyExample2 =
        ((getStatisticsItem mergedNetStatisticsKeyEqual [] statisticsKeyExample).fst,
         (getStatisticsItem mergedNetStatisticsKeyEqual [] statisticsKeyExample).snd)) :=
  ⟨rfl, rfl, rfl, rfl, by decide, by decide, by decide,
    mergedStrategy_spec statisticsKeyExample statisticsKeyExample2 [] rfl rfl rfl rfl⟩

theorem getStatisticsItem_spec_witness :
    ({ sNewTcp with SendTotalLatency := 5 } : NetStatisticsTCP) ≠ sNewTcp ∧
    ((match findStatisticsEntry netStatisticsKeyEqual [] statisticsKeyExample with
      | some p => getStatisticsItem netStatisticsKeyEqual [] statisticsKeyExample = (p.snd, [])
      | none => getStatisticsItem netStatisticsKeyEqual [] statisticsKeyExample =
          (sNewTcp, [] ++ [(statisticsKeyExample, sNewTcp)])) ∧
     getStatisticsItem netStatisticsKeyEqual (clearStatisticsMap []) statisticsKeyExample =
       (sNewTcp, [(statisticsKeyExample, sNewTcp)]) ∧
     (getStatisticsItem netStatisticsKeyEqual
         (clearStatisticsMap (setStatisticsItem netStatisticsKeyEqual [] statisticsKeyExample
           { sNewTcp with SendTotalLatency := 5 })) statisticsKeyExample).fst = sNewTcp ∧
     (getStatisticsItem netStatisticsKeyEqual
         (clearStatisticsMap (setStatisticsItem netStatisticsKeyEqual [] statisticsKeyExample
           { sNewTcp with SendTotalLatency := 5 })) statisticsKeyExample).fst ≠
       { sNewTcp with SendTotalLatency := 5 }) :=
  ⟨by decide, getStatisticsItem_spec [] statisticsKeyExample
    { sNewTcp with SendTotalLatency := 5 } (by decide)⟩


/-- Decimal rendering of a number, as produced by the platform text
conversions (no sign, no leading zeros, zero rendered as "0"). -/
def decChars (n : Nat) : List Char :=
  if n = 0 then ['0']
  else ((Nat.digits 10 n).map (fun d => Char.ofNat (48 + d))).reverse

/-- Parsing a decimal numeral back to a number. -/
def parseDecChars (s : List Char) : Nat :=
  Nat.ofDigits 10 ((s.map (fun c => c.toNat - 48)).reverse)

/-- One lowercase hexadecimal digit character. -/
def hexDigitChar (d : Nat) : Char :=
  if d < 10 then Char.ofNat (48 + d) else Char.ofNat (87 + d)

/-- The value of one hexadecimal digit character. -/
def hexDigitVal (c : Char) : Nat :=
  if 97 ≤ c.toNat then c.toNat - 87 else c.toNat - 48

/-- Lowercase hexadecimal rendering of a number (zero rendered as "0"). -/
def hexChars (n : Nat) : List Char :=
  if n = 0 then ['0']
  else ((Nat.digits 16 n).map hexDigitChar).reverse

/-- Parsing a hexadecimal numeral back to a number. -/
def parseHexChars (s : List Char) : Nat :=
  Nat.ofDigits 16 ((s.map hexDigitVal).reverse)

theorem decDigit_roundtrip : ∀ d, d < 10 → (Char.ofNat (48 + d)).toNat - 48 = d := by decide

theorem hexDigit_roundtrip : ∀ d, d < 16 → hexDigitVal (hexDigitChar d) = d := by decide

theorem parseDecChars_decChars (n : Nat) : parseDecChars (decChars n) = n := by
  by_cases h : n = 0
  · subst h; decide
  · unfold decChars parseDecChars
    rw [if_neg h, List.map_reverse, List.reverse_reverse, List.map_map]
    have hmap : (Nat.digits 10 n).map ((fun c : Char => c.toNat - 48) ∘
        (fun d => Char.ofNat (48 + d))) = (Nat.digits 10 n).map id := by
      refine List.map_congr_left ?_
      intro d hd
      exact decDigit_roundtrip d (Nat.digits_lt_base (by norm_num) hd)
    rw [hmap, List.map_id, Nat.ofDigits_digits]

theorem parseHexChars_hexChars (n : Nat) : parseHexChars (hexChars n) = n := by
  by_cases h : n = 0
  · subst h; decide
  · unfold hexChars parseHexChars
    rw [if_neg h, List.map_reverse, List.reverse_reverse, List.map_map]
    have hmap : (Nat.digits 16 n).map (hexDigitVal ∘ hexDigitChar) =
        (Nat.digits 16 n).map id := by
      refine List.map_congr_left ?_
      intro d hd
      exact hexDigit_roundtrip d (Nat.digits_lt_base (by norm_num) hd)
    rw [hmap, List.map_id, Nat.ofDigits_digits]


theorem decChars_range (n : Nat) : ∀ c ∈ decChars n, 48 ≤ c.toNat ∧ c.toNat ≤ 57 := by
  intro c hc
  by_cases h : n = 0
  · subst h
    rw [show decChars 0 = ['0'] from rfl, List.mem_singleton] at hc
    subst hc; decide
  · simp only [decChars, if_neg h, List.mem_reverse, List.mem_map] at hc
    obtain ⟨d, hd, rfl⟩ := hc
    have hd10 : d < 10 := Nat.digits_lt_base (by norm_num) hd
    interval_cases d <;> decide

theorem hexChars_range (n : Nat) :
    ∀ c ∈ hexChars n, (48 ≤ c.toNat ∧ c.toNat ≤ 57) ∨ (97 ≤ c.toNat ∧ c.toNat ≤ 102) := by
  intro c hc
  by_cases h : n = 0
  · subst h
    rw [show hexChars 0 = ['0'] from rfl, List.mem_singleton] at hc
    subst hc; left; decide
  · simp only [hexChars, if_neg h, List.mem_reverse, List.mem_map] at hc
    obtain ⟨d, hd, rfl⟩ := hc
    have hd16 : d < 16 := Nat.digits_lt_base (by norm_num) hd
    interval_cases d <;> [skip; skip; skip; skip; skip; skip; skip; skip; skip; skip;
      skip; skip; skip; skip; skip; skip] <;> first | (left; decide) | (right; decide)

theorem decChars_ne_nil (n : Nat) : decChars n ≠ [] := by
  by_cases h : n = 0
  · subst h; decide
  · simp [decChars, if_neg h, Nat.digits_ne_nil_iff_ne_zero.mpr h]

theorem hexChars_ne_nil (n : Nat) : hexChars n ≠ [] := by
  by_cases h : n = 0
  · subst h; decide
  · simp [hexChars, if_neg h, Nat.digits_ne_nil_iff_ne_zero.mpr h]

/-- Join text groups with a single separator character (no trailing
separator), as the textual address forms do. -/
def joinSep (sep : Char) : List (List Char) → List Char
  | [] => []
  | [g] => g
  | g :: gs => g ++ sep :: joinSep sep gs

/-- Split a text on a separator character. -/
def splitSep (sep : Char) : List Char → List (List Char)
  | [] => [[]]
  | c :: cs =>
      if c = sep then [] :: splitSep sep cs
      else
        match splitSep sep cs with
        | g :: gs => (c :: g) :: gs
        | [] => [[c]]

theorem splitSep_no_sep (sep : Char) (g : List Char) (hg : ∀ c ∈ g, c ≠ sep) :
    splitSep sep g = [g] := by
  induction g with
  | nil => rfl
  | cons c cs ih =>
      have hc : c ≠ sep := hg c (List.mem_cons_self c cs)
      have ih2 := ih (fun x hx => hg x (List.mem_cons_of_mem c hx))
      simp only [splitSep, if_neg hc, ih2]

theorem splitSep_append (sep : Char) (g rest : List Char) (hg : ∀ c ∈ g, c ≠ sep) :
    splitSep sep (g ++ sep :: rest) = g :: splitSep sep rest := by
  induction g with
  | nil => simp [splitSep]
  | cons c cs ih =>
      have hc : c ≠ sep := hg c (List.mem_cons_self c cs)
      have ih2 := ih (fun x hx => hg x (List.mem_cons_of_mem c hx))
      simp only [List.cons_append, splitSep, if_neg hc, List.append_eq]
      rw [ih2]

theorem splitSep_joinSep (sep : Char) (gs : List (List Char)) (hne : gs ≠ [])
    (h : ∀ g ∈ gs, ∀ c ∈ g, c ≠ sep) : splitSep sep (joinSep sep gs) = gs := by
  induction gs with
  | nil => exact absurd rfl hne
  | cons g gs ih =>
      cases gs with
      | nil => exact splitSep_no_sep sep g (h g (List.mem_cons_self g []))
      | cons g2 gs2 =>
          show splitSep sep (g ++ sep :: joinSep sep (g2 :: gs2)) = g :: (g2 :: gs2)
          rw [splitSep_append sep g _ (h g (List.mem_cons_self g _))]
          rw [ih (by simp) (fun x hx => h x (List.mem_cons_of_mem g hx))]

theorem mem_joinSep (sep : Char) (gs : List (List Char)) (c : Char)
    (hc : c ∈ joinSep sep gs) : c = sep ∨ ∃ g ∈ gs, c ∈ g := by
  induction gs with
  | nil => simp [joinSep] at hc
  | cons g gs ih =>
      cases gs with
      | nil =>
          simp only [joinSep] at hc
          exact Or.inr ⟨g, List.mem_cons_self g [], hc⟩
      | cons g2 gs2 =>
          simp only [joinSep, List.mem_append, List.mem_cons] at hc
          rcases hc with hg | hsep | hrest
          · exact Or.inr ⟨g, List.mem_cons_self g _, hg⟩
          · exact Or.inl hsep
          · rcases ih hrest with h1 | ⟨g3, hg3, hcg3⟩
            · exact Or.inl h1
            · exact Or.inr ⟨g3, List.mem_cons_of_mem g hg3, hcg3⟩


/-- Modelled from the spec: the platform numeric-address renderer
(`inet_ntop` with `AF_INET`, external to the repository): dotted-quad
decimal over the four address bytes. -/
def inetNtop4 (b0 b1 b2 b3 : Nat) : List Char :=
  joinSep '.' [decChars b0, decChars b1, decChars b2, decChars b3]

/-- Modelled from the spec: the platform numeric-address renderer
(`inet_ntop` with `AF_INET6`, external to the repository): colon-separated
lowercase hexadecimal 16-bit groups. -/
def inetNtop6 (g0 g1 g2 g3 g4 g5 g6 g7 : Nat) : List Char :=
  joinSep ':' [hexChars g0, hexChars g1, hexChars g2, hexChars g3,
               hexChars g4, hexChars g5, hexChars g6, hexChars g7]

/-- Modelled from the spec: the platform numeric-address parser
(`inet_pton` with `AF_INET`, external to the repository); malformed input
yields a zeroed value with no error signal. -/
def inetPton4 (s : List Char) : Nat × Nat × Nat × Nat :=
  match (splitSep '.' s).map parseDecChars with
  | [a, b, c, d] => (a, b, c, d)
  | _ => (0, 0, 0, 0)

/-- Modelled from the spec: the platform numeric-address parser
(`inet_pton` with `AF_INET6`, external to the repository); malformed input
yields a zeroed value with no error signal. -/
def inetPton6 (s : List Char) : Nat × Nat × Nat × Nat × Nat × Nat × Nat × Nat :=
  match (splitSep ':' s).map parseHexChars with
  | [a, b, c, d, e, f, g, h] => (a, b, c, d, e, f, g, h)
  | _ => (0, 0, 0, 0, 0, 0, 0, 0)

/-- Source function `SockAddressToString` of `helper.h`: selects the IPv4 or IPv6
conversion by the address type tag. -/
def sockAddressToString : SockAddress → List Char
  | SockAddress.ipv4 b0 b1 b2 b3 => inetNtop4 b0 b1 b2 b3
  | SockAddress.ipv6 g0 g1 g2 g3 g4 g5 g6 g7 => inetNtop6 g0 g1 g2 g3 g4 g5 g6 g7

/-- Source function `SockAddressFromString` of `helper.h`: treats the text as IPv4 when it
contains a '.' character and as IPv6 otherwise, then delegates to the
platform parser. -/
def sockAddressFromString (s : List Char) : SockAddress :=
  if '.' ∈ s then
    match inetPton4 s with
    | (a, b, c, d) => SockAddress.ipv4 a b c d
  else
    match inetPton6 s with
    | (a, b, c, d, e, f, g, h) => SockAddress.ipv6 a b c d e f g h

/-- Claim C6: for every valid IPv4 or IPv6 address, converting to text and
back restores the address; `SockAddressFromString` selects IPv4 exactly
when the text contains a '.' character. -/
theorem sockAddress_roundtrip (a : SockAddress) (hv : ValidSockAddress a) :
    sockAddressFromString (sockAddressToString a) = a := by
  cases a with
  | ipv4 b0 b1 b2 b3 =>
      have hnosep : ∀ g ∈ [decChars b0, decChars b1, decChars b2, decChars b3],
          ∀ c ∈ g, c ≠ ('.' : Char) := by
        intro g hg c hc heq
        simp only [List.mem_cons, List.not_mem_nil, or_false] at hg
        have hrange : 48 ≤ c.toNat ∧ c.toNat ≤ 57 := by
          rcases hg with rfl | rfl | rfl | rfl <;> exact decChars_range _ c hc
        have h46 : c.toNat = 46 := by subst heq; rfl
        omega
      have hdot : ('.' : Char) ∈ inetNtop4 b0 b1 b2 b3 := by
        show ('.' : Char) ∈ decChars b0 ++ '.' ::
          joinSep '.' [decChars b1, decChars b2, decChars b3]
        exact List.mem_append_right _ (List.mem_cons_self _ _)
      show sockAddressFromString (inetNtop4 b0 b1 b2 b3) = _
      unfold sockAddressFromString
      rw [if_pos hdot]
      unfold inetPton4 inetNtop4
      rw [splitSep_joinSep '.' _ (by simp) hnosep]
      simp [parseDecChars_decChars]
  | ipv6 g0 g1 g2 g3 g4 g5 g6 g7 =>
      have hnosep : ∀ g ∈ [hexChars g0, hexChars g1, hexChars g2, hexChars g3,
          hexChars g4, hexChars g5, hexChars g6, hexChars g7],
          ∀ c ∈ g, c ≠ (':' : Char) := by
        intro g hg c hc heq
        simp only [List.mem_cons, List.not_mem_nil, or_false] at hg
        have hrange : (48 ≤ c.toNat ∧ c.toNat ≤ 57) ∨ (97 ≤ c.toNat ∧ c.toNat ≤ 102) := by
          rcases hg with rfl | rfl | rfl | rfl | rfl | rfl | rfl | rfl <;>
            exact hexChars_range _ c hc
        have h58 : c.toNat = 58 := by subst heq; rfl
        omega
      have hnodot : ('.' : Char) ∉ inetNtop6 g0 g1 g2 g3 g4 g5 g6 g7 := by
        intro hmem
        rcases mem_joinSep ':' _ '.' hmem with heq | ⟨g, hg, hcg⟩
        · exact absurd heq (by decide)
        · simp only [List.mem_cons, List.not_mem_nil, or_false] at hg
          have hrange : (48 ≤ ('.' : Char).toNat ∧ ('.' : Char).toNat ≤ 57) ∨
              (97 ≤ ('.' : Char).toNat ∧ ('.' : Char).toNat ≤ 102) := by
            rcases hg with rfl | rfl | rfl | rfl | rfl | rfl | rfl | rfl <;>
              exact hexChars_range _ _ hcg
          revert hrange
          decide
      show sockAddressFromString (inetNtop6 g0 g1 g2 g3 g4 g5 g6 g7) = _
      unfold sockAddressFromString
      rw [if_neg hnodot]
      unfold inetPton6 inetNtop6
      rw [splitSep_joinSep ':' _ (by simp) hnosep]
      simp [parseHexChars_hexChars]

theorem sockAddress_roundtrip_witness :
    ValidSockAddress (SockAddress.ipv4 192 168 1 30) ∧
    sockAddressFromString (sockAddressToString (SockAddress.ipv4 192 168 1 30)) =
      SockAddress.ipv4 192 168 1 30 :=
  ⟨by decide, sockAddress_roundtrip (SockAddress.ipv4 192 168 1 30) (by decide)⟩

/-- Modelled from the spec: the service category of the resolver
collaborator (`metas/ServiceMetaCache.h`, not under `src/`); `Server` is
the generic fallback category. -/
inductive ServiceCategory where
  | Server
  | Other
  deriving DecidableEq, Repr

/-- Modelled from the spec: a resolver result — a category and an
optional host name. -/
structure ServiceMeta where
  Category : ServiceCategory
  Host : List Char
  deriving DecidableEq, Repr

/-- Modelled from the spec: textual name of a service category. -/
def serviceCategoryToString : ServiceCategory → List Char
  | ServiceCategory.Server => "server".toList
  | ServiceCategory.Other => "other".toList

/-- Modelled from the spec: textual name of a socket category. -/
def socketCategoryToString : SocketCategory → List Char
  | SocketCategory.Tcp => "tcp".toList
  | SocketCategory.Udp => "udp".toList
  | SocketCategory.Other => "other".toList

/-- Modelled from the spec: textual name of an observed role. -/
def packetRoleTypeToString : PacketRoleType → List Char
  | PacketRoleType.Unknown => "unknown".toList
  | PacketRoleType.Client => "client".toList
  | PacketRoleType.Server => "server".toList

/-- A field value of the structured-log record: plain text or a nested
JSON object (a list of name/text pairs). -/
inductive ContentValue where
  | text (s : List Char)
  | jsonObj (fields : List (List Char × List Char))
  deriving DecidableEq, Repr

/-- Source method `NetStaticticsMap::StatisticsKeyToPB` of `helper.h`: renders a
Connection Key into the ordered key/value fields of a log record. The
source's process-wide `ServiceMetaManager` singleton is passed here as
the explicit `resolver` collaborator (`none` models a cache miss, i.e. an
empty `ServiceMeta`). -/
def statisticsKeyToPB (resolver : Nat → List Char → Option ServiceMeta)
    (key : NetStatisticsKey) (withLocalPort : Bool) : List (List Char × ContentValue) :=
  let remoteIp := sockAddressToString key.DstAddr
  let root : List (List Char × List Char) :=
    [("remote_ip".toList, remoteIp),
     ("remote_port".toList,
       if key.RoleType = PacketRoleType.Server then "0".toList else decChars key.DstPort)] ++
    (if key.RoleType = PacketRoleType.Client then
       match resolver key.PID remoteIp with
       | none => [("remote_type".toList, serviceCategoryToString ServiceCategory.Server)]
       | some meta =>
           [("remote_type".toList, serviceCategoryToString meta.Category)] ++
             (if meta.Host ≠ [] then [("remote_host".toList, meta.Host)] else [])
     else [])
  [("remote_info".toList, ContentValue.jsonObj root)] ++
    (if withLocalPort then
      [("local_port".toList, ContentValue.text (decChars key.SrcPort))]
     else []) ++
    [("socket_type".toList, ContentValue.text (socketCategoryToString key.SockCategory)),
     ("role".toList, ContentValue.text (packetRoleTypeToString key.RoleType))]

/-- Claim C9: `KeyToRecord` emits the nested `remote_info` object as its
first field, whose `remote_port` member is the text "0" whenever the
key's observed role is `Server` — regardless of the destination port —
and the destination port as decimal text otherwise. -/
theorem statisticsKeyToPB_remote_port (resolver : Nat → List Char → Option ServiceMeta)
    (key : NetStatisticsKey) (withLocalPort : Bool) :
    ∃ restRoot restTop,
      statisticsKeyToPB resolver key withLocalPort =
        ("remote_info".toList,
          ContentValue.jsonObj (("remote_ip".toList, sockAddressToString key.DstAddr) ::
            ("remote_port".toList,
              if key.RoleType = PacketRoleType.Server then "0".toList
              else decChars key.DstPort) :: restRoot)) :: restTop :=
  ⟨_, _, rfl⟩

/-- Modelled from the spec: textual name of an event type. -/
def packetEventTypeToString : PacketEventType → List Char
  | PacketEventType.Connect => "connect".toList
  | PacketEventType.Close => "close".toList
  | PacketEventType.Data => "data".toList

/-- Modelled from the spec: textual name of a packet direction. -/
def packetTypeToString : PacketType → List Char
  | PacketType.None => "none".toList
  | PacketType.In => "in".toList
  | PacketType.Out => "out".toList

/-- Modelled from the spec: textual name of a protocol type. -/
def protocolTypeToString : ProtocolType → List Char
  | ProtocolType.Unknown => "unknown".toList
  | ProtocolType.HTTP => "http".toList

/-- Modelled from the spec: textual name of a message type. -/
def messageTypeToString : MessageType → List Char
  | MessageType.None => "none".toList
  | MessageType.Request => "request".toList
  | MessageType.Response => "response".toList

/-- Source function `PacketEventHeaderToString` of `helper.h`. -/
def packetEventHeaderToString (header : PacketEventHeader) : List Char :=
  "EventType : ".toList ++ packetEventTypeToString header.EventType ++ "\n".toList ++
    "PID : ".toList ++ decChars header.PID ++ "\n".toList ++
    "SocketHash : ".toList ++ decChars header.SockHash ++ "\n".toList ++
    "Time : ".toList ++ decChars header.TimeNano ++ "\n".toList ++
    "SrcAddress : ".toList ++ sockAddressToString header.SrcAddr ++ "\n".toList ++
    "SrcPort : ".toList ++ decChars header.SrcPort ++ "\n".toList ++
    "DstAddress : ".toList ++ sockAddressToString header.DstAddr ++ "\n".toList ++
    "DstPort : ".toList ++ decChars header.DstPort ++ "\n".toList

/-- One uppercase hexadecimal digit of the source's `hex_chars` table. -/
def hexUpperDigit (d : Nat) : Char :=
  if d < 10 then Char.ofNat (48 + d) else Char.ofNat (55 + d)

/-- The `%06d` zero-padded six-wide decimal of the dump line headers. -/
def pad6 (n : Nat) : List Char :=
  List.replicate (6 - (decChars n).length) '0' ++ decChars n

/-- The hexadecimal dump loop of `PacketEventDataToString`: 32 bytes per
line with a `%06d - %06d : ` line header, bytes in 4-byte groups each
prefixed `0x`, one trailing blank per group and a newline per line. -/
def hexDump (buf : List Nat) (bufferLen : Nat) : List Char :=
  (List.range bufferLen).foldl (fun acc i =>
    let acc1 := if i % 32 = 0 then
        acc ++ pad6 i ++ " - ".toList ++ pad6 (i + 32) ++ " : ".toList
      else acc
    let acc2 := if i % 4 = 0 then acc1 ++ "0x".toList else acc1
    let b := buf.getD i 0
    let acc3 := acc2 ++ [hexUpperDigit (b % 256 / 16), hexUpperDigit (b % 16)]
    let acc4 := if i % 4 = 3 then acc3 ++ " ".toList else acc3
    if i % 32 = 31 then acc4 ++ "\n".toList else acc4) []

/-- Source function `PacketEventDataToString` of `helper.h`: the data-section fixed
fields, the framed hexadecimal dump and the raw payload text. -/
def packetEventDataToString (data : PacketEventData) : List Char :=
  "PacketType : ".toList ++ packetTypeToString data.PktType ++ "\n".toList ++
    "ProtocolType : ".toList ++ protocolTypeToString data.PtlType ++ "\n".toList ++
    "MessageType : ".toList ++ messageTypeToString data.MsgType ++ "\n".toList ++
    "RealLen : ".toList ++ decChars data.RealLen ++ "\n".toList ++
    "BufferLen : ".toList ++ decChars data.BufferLen ++ "\n".toList ++
    "Data : ".toList ++ List.replicate 31 '#' ++ "\n".toList ++
    hexDump data.Buffer data.BufferLen ++ "\n".toList ++
    List.replicate 31 '#' ++ "\n".toList ++ "\n".toList ++
    "Data String : \n".toList ++
    (data.Buffer.take data.BufferLen).map (fun b => Char.ofNat (b % 256)) ++ "\n".toList

/-- Source function `PacketEventToString` of `helper.h`: the literal text "ErrorLength"
when `len` is below the fixed header size; otherwise the header rendering
and, for data events, the data-section rendering of the section overlaid
after the header. -/
def packetEventToString (event : List Nat) (len : Nat) : List Char :=
  if len < headerSize then
    "ErrorLength".toList
  else
    match (parseHeader event).EventType with
    | PacketEventType.Data =>
        packetEventHeaderToString (parseHeader event) ++ "\n".toList ++
          packetEventDataToString
            { parseDataFixed (event.drop headerSize) with
              Buffer := (event.drop headerSize).drop dataSize }
    | _ => packetEventHeaderToString (parseHeader event)

/-- Claim C10: for every buffer shorter than the fixed header size, the
event-to-text formatter returns exactly the literal "ErrorLength",
rendering no header or data fields. -/
theorem packetEventToString_short (event : List Nat) (h : event.length < headerSize) :
    packetEventToString event event.length = "ErrorLength".toList := by
  unfold packetEventToString
  rw [if_pos h]

theorem packetEventToString_short_witness :
    ([1, 2, 3] : List Nat).length < headerSize ∧
    packetEventToString [1, 2, 3] ([1, 2, 3] : List Nat).length = "ErrorLength".toList :=
  ⟨by decide, packetEventToString_short [1, 2, 3] (by decide)⟩
